import Mathlib

/-!
Verification development for the IdeaMapper collaborative map editor.

The definitions below are a shallow embedding of the two source files:
the avatar-prompt modal (its pure validation helpers) and the MapEditor
component (the realtime collaboration and synchronization engine).
JavaScript numbers are embedded as `Rat` (floats that the program actually
produces in the relevant paths are exact), JS strings as `String`,
JS objects keyed by id as association lists, and the React component state
as an explicit `EditorState` record stepped by event handlers.
-/

set_option maxRecDepth 8192

namespace IdeaMapper

/-! ## Avatar validation (AvatarPromptModal source file) -/

/-- A browser File object as seen by the validation helpers:
`name`, MIME `type`, and `size` in bytes (an absent/undefined name is the
empty string, matching the source's `file.name || ""`). -/
structure JsFile where
  name : String
  type : String
  size : Nat
  deriving DecidableEq, Repr

def MAX_AVATAR_BYTES : Nat := 5 * 1024 * 1024

def ALLOWED_IMAGE_TYPES : List String := ["image/jpeg", "image/png", "image/webp"]

def ALLOWED_IMAGE_EXTS : List String := ["jpg", "jpeg", "png", "webp"]

/-- JS `String.prototype.split(".")` on the character list: splitting the
empty string gives `[[]]`, and separators delimit (possibly empty) segments. -/
def splitOnDot : List Char → List (List Char)
  | [] => [[]]
  | c :: rest =>
    match splitOnDot rest with
    | [] => [[c]]
    | h :: t => if c = '.' then [] :: h :: t else (c :: h) :: t

/-- JS `toLowerCase` on one character (ASCII case mapping, which is all the
validation compares against). -/
def jsToLower (c : Char) : Char :=
  if 65 ≤ c.toNat ∧ c.toNat ≤ 90 then Char.ofNat (c.toNat + 32) else c

/-- The extension computed by the source:
`(file.name || "").split(".").pop()?.toLowerCase()` — the last dot-separated
segment of the name, lowercased. -/
def fileExt (name : String) : String :=
  ⟨((splitOnDot name.data).getLastD []).map jsToLower⟩

/-- Source `isAllowedImageFile`: no file is disallowed; an allow-listed MIME
type is allowed; otherwise the lowercased last dot-component of the name must
be an allow-listed extension. -/
def isAllowedImageFile (file : Option JsFile) : Bool :=
  match file with
  | none => false
  | some f =>
    if ALLOWED_IMAGE_TYPES.contains f.type then true
    else ALLOWED_IMAGE_EXTS.contains (fileExt f.name)

/-- Source `getAvatarValidationError`: empty string means the file is accepted. -/
def getAvatarValidationError (file : Option JsFile) : String :=
  match file with
  | none => "Please choose an image."
  | some f =>
    if ¬ isAllowedImageFile (some f) then "Please upload a JPG, PNG, or WebP image."
    else if f.size > MAX_AVATAR_BYTES then "Image must be 5MB or smaller."
    else ""

/-! ## JavaScript integer parsing and printing (used by `addNode`) -/

/-- Decimal digit test on a character, by code point (48..57). -/
def isDigitChar (c : Char) : Bool := 48 ≤ c.toNat && c.toNat ≤ 57

/-- Numeric value of a decimal digit character. -/
def digitVal (c : Char) : Nat := c.toNat - 48

/-- Longest decimal-digit prefix of a character list, as a number;
`none` when there is no leading digit (JS NaN). -/
def parseIntDigits (cs : List Char) : Option Nat :=
  let ds := cs.takeWhile isDigitChar
  if ds.isEmpty then none
  else some (ds.foldl (fun a c => 10 * a + digitVal c) 0)

/-- Embedding of JavaScript `parseInt(s)` in radix 10: skip leading spaces,
optional sign, then the longest digit prefix; `none` models NaN. -/
def parseIntJS (s : String) : Option Int :=
  match s.data.dropWhile (fun c => c = ' ') with
  | [] => none
  | c :: rest =>
    if c = '-' then (parseIntDigits rest).map (fun n => -(n : Int))
    else if c = '+' then (parseIntDigits rest).map (fun n => (n : Int))
    else (parseIntDigits (c :: rest)).map (fun n => (n : Int))

/-- The decimal digit character for a digit value. -/
def natDigitChar (d : Nat) : Char := Char.ofNat (48 + d)

/-- Little-endian decimal digits with explicit fuel (the fuel `n` itself
always suffices). -/
def toDigitsLE : Nat → Nat → List Nat
  | 0, _ => []
  | fuel + 1, n => if n = 0 then [] else n % 10 :: toDigitsLE fuel (n / 10)

/-- Little-endian decimal digits of a natural number. -/
def natDigitsLE (n : Nat) : List Nat := toDigitsLE n n

/-- Decimal representation of a natural number (JS `Number.prototype.toString`
restricted to naturals). -/
def natToDecimal (n : Nat) : String :=
  if n = 0 then "0" else ⟨((natDigitsLE n).map natDigitChar).reverse⟩

/-- Decimal representation of an integer (JS `String(int)` / template
stringification of an integral number). -/
def intToDecimal (m : Int) : String :=
  if m < 0 then "-" ++ natToDecimal m.natAbs else natToDecimal m.toNat

/-- JS `Math.max` over a nonempty spread of `parseInt` results: any NaN
(`none`) poisons the maximum to NaN. -/
def jsMaxParsed : List (Option Int) → Option Int
  | [] => none
  | [o] => o
  | o :: o' :: rest =>
    match o, jsMaxParsed (o' :: rest) with
    | some a, some b => some (max a b)
    | _, _ => none

/-! ## MapEditor data model -/

/-- A 2D position (JS floats embedded as rationals). -/
structure Pos where
  x : Rat
  y : Rat
  deriving DecidableEq, Repr

/-- The `data` object of a React Flow node as used by the editor:
the node title and the transient inline-edit flag. -/
structure NodeData where
  title : String
  isEditing : Bool
  deriving DecidableEq, Repr

/-- A node as created and mutated by the editor. The `border` string models
`style.border` (the editor writes "2px solid <color>"). -/
structure Node where
  id : String
  data : NodeData
  position : Pos
  border : String
  creator : String
  creationTimestamp : String
  selected : Bool
  deriving DecidableEq, Repr

/-- Edge style: stroke color, opacity, width, optional dash pattern. -/
structure EdgeStyle where
  stroke : Option String
  strokeOpacity : Option Rat
  strokeWidth : Option Rat
  strokeDasharray : Option String
  deriving DecidableEq, Repr

/-- An edge as stored in the editor state. -/
structure Edge where
  id : String
  source : String
  target : String
  label : Option String
  style : EdgeStyle
  markerEnd : Option String
  selected : Bool
  deriving DecidableEq, Repr

/-- Source `getNodeTitle`: `data.title` when it is a string, else "". -/
def getNodeTitle (n : Node) : String := n.data.title

/-- Source `setNodeTitle`: write the title and clear the edit flag. -/
def setNodeTitle (n : Node) (nextTitle : String) : Node :=
  { n with data := { n.data with title := nextTitle, isEditing := false } }

/-- Node change events delivered by the canvas widget (the change kinds the
engine's paths exercise). -/
inductive NodeChange
  | position (id : String) (p : Pos)
  | select (id : String) (b : Bool)
  deriving DecidableEq, Repr

/-- Edge change events delivered by the canvas widget. -/
inductive EdgeChange
  | select (id : String) (b : Bool)
  | remove (id : String)
  deriving DecidableEq, Repr

/-- Models the external React Flow helper `applyNodeChanges` for the change
kinds above: a position change moves the node, a selection change toggles it.
(The canvas widget is an external collaborator; only the use pattern of this
helper matters to the engine.) -/
def applyNodeChanges (changes : List NodeChange) (nds : List Node) : List Node :=
  changes.foldl
    (fun acc c =>
      match c with
      | .position i p => acc.map (fun n => if n.id = i then { n with position := p } else n)
      | .select i b => acc.map (fun n => if n.id = i then { n with selected := b } else n))
    nds

/-- Models the external React Flow helper `applyEdgeChanges`. -/
def applyEdgeChanges (changes : List EdgeChange) (eds : List Edge) : List Edge :=
  changes.foldl
    (fun acc c =>
      match c with
      | .select i b => acc.map (fun e => if e.id = i then { e with selected := b } else e)
      | .remove i => acc.filter (fun e => ¬ e.id = i))
    eds

/-- One remote cursor entry, keyed by participant id in the overlay map. -/
structure CursorEntry where
  x : Rat
  y : Rat
  username : String
  color : String
  deriving DecidableEq, Repr

/-- Outbound broadcast messages sent on the realtime channel. -/
inductive OutMsg
  | cursor (userId : String) (x y : Rat) (username color : String) (ts : Int)
  | nodeMove (userId nodeId : String) (x y : Rat) (ts : Int)
  deriving DecidableEq, Repr

/-- The payload of one durable write issued by `updateMapRow`
(the full-document row update sent to the `maps` table). -/
structure WriteRow where
  nodes : List Node
  edges : List Edge
  name : String
  description : String
  node_notes : List (String × String)
  node_data : List (String × String)
  last_edited : Int
  deriving DecidableEq, Repr

/-- General-edit debounce delay (ms) used by `handleNodeChanges`. -/
def SAVE_DEBOUNCE_MS : Nat := 300

/-- Drag-stop debounce delay (ms) used by `handleNodeDragStop`. -/
def DRAG_SAVE_DEBOUNCE_MS : Nat := 250

/-- The MapEditor component state relevant to the collaboration engine,
plus observation logs (`writes`, `broadcasts`) recording the durable writes
performed and the broadcasts sent. A pending `setTimeout` is an `Option`
carrying its delay and whatever the scheduled closure captured:
`saveTimer` captures the updated nodes and current edges (handleNodeChanges),
`dragSaveTimer` captures the current edges (handleNodeDragStop reads nodes
fresh at fire time through the functional `setNodes`). `now` is the ambient
clock used for timestamps. -/
structure EditorState where
  nodes : List Node
  edges : List Edge
  mapName : String
  mapDescription : String
  nodeNotes : List (String × String)
  nodeDataMap : List (String × String)
  mapLoaded : Bool
  currentUser : Option String
  hasChannel : Bool
  borderColor : String
  editingNodeId : Option String
  pendingLabel : String
  cursors : List (String × CursorEntry)
  showMyCursor : Bool
  showOthersCursors : Bool
  cursorFps : Rat
  lastCursorSent : Rat
  saveTimer : Option (Nat × List Node × List Edge)
  dragSaveTimer : Option (Nat × List Edge)
  writes : List WriteRow
  broadcasts : List OutMsg
  now : Int
  deriving DecidableEq, Repr

/-- Object update `{ ...prev, [k]: v }` on an id-keyed map. -/
def upsert (l : List (String × CursorEntry)) (k : String) (v : CursorEntry) :
    List (String × CursorEntry) :=
  if l.any (fun p => p.1 = k) then l.map (fun p => if p.1 = k then (k, v) else p)
  else l ++ [(k, v)]

/-- Object access `prev[k]` on an id-keyed map. -/
def getEntry : List (String × CursorEntry) → String → Option CursorEntry
  | [], _ => none
  | (k', v) :: rest, k => if k' = k then some v else getEntry rest k

/-- The payload `updateMapRow` builds from its arguments and the component
state (name falls back to "Untitled"; `last_edited` is stamped from the
clock; descriptions and maps pass through, `""`/`{}` fallbacks being
identities in the total model). -/
def buildPayload (s : EditorState) (newNodes : List Node) (newEdges : List Edge) : WriteRow :=
  { nodes := newNodes
    edges := newEdges
    name := if s.mapName = "" then "Untitled" else s.mapName
    description := s.mapDescription
    node_notes := s.nodeNotes
    node_data := s.nodeDataMap
    last_edited := s.now }

/-- The success path of `updateMapRow`: a no-op before the map has loaded,
otherwise exactly one durable write of the full document. -/
def updateMapRowStep (s : EditorState) (newNodes : List Node) (newEdges : List Edge) :
    EditorState :=
  if s.mapLoaded then { s with writes := s.writes ++ [buildPayload s newNodes newEdges] } else s

/-! ## MapEditor event handlers -/

/-- Source `handleNodeChanges`: suppressed entirely while a node is in edit
mode; otherwise applies the changes, cancels any pending general-edit timer
and schedules a 300ms debounced write capturing the updated nodes and the
current edges. -/
def handleNodeChanges (s : EditorState) (changes : List NodeChange) : EditorState :=
  if s.editingNodeId.isSome then s
  else
    let updated := applyNodeChanges changes s.nodes
    { s with nodes := updated, saveTimer := some (SAVE_DEBOUNCE_MS, updated, s.edges) }

/-- Source `handleEdgeChanges`: applies the changes and performs a durable
write immediately (current nodes, updated edges) — no debouncing. -/
def handleEdgeChanges (s : EditorState) (changes : List EdgeChange) : EditorState :=
  let updated := applyEdgeChanges changes s.edges
  updateMapRowStep { s with edges := updated } s.nodes updated

/-- Source `handleNodeDrag`: broadcast the node's live position; requires the
realtime channel and the current user, performs no write and touches no timer. -/
def handleNodeDrag (s : EditorState) (nodeId : String) (p : Pos) : EditorState :=
  match s.currentUser with
  | none => s
  | some u =>
    if s.hasChannel then
      { s with broadcasts := s.broadcasts ++ [OutMsg.nodeMove u nodeId p.x p.y s.now] }
    else s

/-- Source `handleNodeDragStop`: cancel any pending drag timer and schedule a
250ms debounced write; the closure captures the current edges and will read
the nodes fresh at fire time. -/
def handleNodeDragStop (s : EditorState) : EditorState :=
  { s with dragSaveTimer := some (DRAG_SAVE_DEBOUNCE_MS, s.edges) }

/-- Firing of the general-edit debounce timer: one durable write with the
captured nodes and edges. -/
def fireSaveTimer (s : EditorState) : EditorState :=
  match s.saveTimer with
  | none => s
  | some (_, capNodes, capEdges) =>
    updateMapRowStep { s with saveTimer := none } capNodes capEdges

/-- Firing of the drag-stop debounce timer: one durable write with the nodes
at fire time and the captured edges. -/
def fireDragTimer (s : EditorState) : EditorState :=
  match s.dragSaveTimer with
  | none => s
  | some (_, capEdges) =>
    updateMapRowStep { s with dragSaveTimer := none } s.nodes capEdges

/-- Source broadcast handler for `cursor` events: drop empty ids, drop
self-echo, drop when "show others' cursors" is off, else upsert the overlay. -/
def recvCursor (s : EditorState) (userId : String) (x y : Rat) (username color : String) :
    EditorState :=
  match s.currentUser with
  | none => s
  | some me =>
    if userId = "" then s
    else if userId = me then s
    else if ¬ s.showOthersCursors then s
    else { s with cursors := upsert s.cursors userId { x, y, username, color } }

/-- Source broadcast handler for `node-move` events: drop empty node ids,
drop self-echo, else overwrite the target node's rendered position
(no write, no timer; note: no edit-mode check). -/
def recvNodeMove (s : EditorState) (userId nodeId : String) (x y : Rat) : EditorState :=
  match s.currentUser with
  | none => s
  | some me =>
    if nodeId = "" then s
    else if userId = me then s
    else
      { s with nodes :=
          s.nodes.map (fun n => if n.id = nodeId then { n with position := { x, y } } else n) }

/-- Source `onNodeDoubleClick`: open the inline edit buffer for the node and
mark it editing. -/
def onNodeDoubleClick (s : EditorState) (nodeId : String) : EditorState :=
  { s with
    editingNodeId := some nodeId
    pendingLabel :=
      match s.nodes.find? (fun n => n.id = nodeId) with
      | some n => getNodeTitle n
      | none => ""
    nodes :=
      s.nodes.map (fun n =>
        if n.id = nodeId then { n with data := { n.data with isEditing := true } } else n) }

/-- Source `handleLabelTyping`: every keystroke only replaces the local edit
buffer. -/
def handleLabelTyping (s : EditorState) (value : String) : EditorState :=
  { s with pendingLabel := value }

/-- Source `commitLabel` (run on blur or Enter): write the buffer into the
editing node's title, clear its edit flag, perform one durable write, and
leave edit mode. -/
def commitLabel (s : EditorState) : EditorState :=
  match s.editingNodeId with
  | none => s
  | some i =>
    let updated := s.nodes.map (fun n => if n.id = i then setNodeTitle n s.pendingLabel else n)
    let s1 := updateMapRowStep { s with nodes := updated } updated s.edges
    { s1 with editingNodeId := none }

/-- The effect reacting to the "show others' cursors" toggle: when turned
off, keep only the local participant's overlay entry (clear everything when
there is no current user). -/
def setShowOthersCursors (s : EditorState) (b : Bool) : EditorState :=
  let s1 := { s with showOthersCursors := b }
  if b then s1
  else
    { s1 with cursors :=
        match s1.currentUser with
        | some me =>
          match getEntry s1.cursors me with
          | some v => [(me, v)]
          | none => []
        | none => [] }

/-- Source `addNode` id computation:
`nodes.length ? Math.max(...nodes.map(n => parseInt(n.id))) : 0`. -/
def addNodeMaxId (nodes : List Node) : Option Int :=
  if nodes.isEmpty then some 0
  else jsMaxParsed (nodes.map (fun n => parseIntJS n.id))

/-- Source `addNode` assigned identifier: `(maxId + 1).toString()`
(NaN stringifies to "NaN"). -/
def addNodeNewId (nodes : List Node) : String :=
  match addNodeMaxId nodes with
  | some m => intToDecimal (m + 1)
  | none => "NaN"

/-- Source `addNode`: build the new node, append it and perform one durable
write. (The creator-profile lookup is external I/O and does not affect the
graph.) -/
def addNode (s : EditorState) (position : Pos) : EditorState :=
  let newNodeId := addNodeNewId s.nodes
  let userId := s.currentUser.getD "unknown"
  let newNode : Node :=
    { id := newNodeId
      data := { title := "Node " ++ newNodeId, isEditing := false }
      position := position
      border := "2px solid " ++ s.borderColor
      creator := userId
      creationTimestamp := intToDecimal s.now
      selected := false }
  updateMapRowStep { s with nodes := s.nodes ++ [newNode] } (s.nodes ++ [newNode]) s.edges

/-! ## Event dispatch -/

/-- The discrete events the collaboration engine reacts to. -/
inductive Ev
  | nodeChanges (cs : List NodeChange)
  | edgeChanges (cs : List EdgeChange)
  | nodeDrag (nodeId : String) (p : Pos)
  | nodeDragStop
  | saveTimerFires
  | dragTimerFires
  | cursorMsg (userId : String) (x y : Rat) (username color : String)
  | nodeMoveMsg (userId nodeId : String) (x y : Rat)
  | doubleClick (nodeId : String)
  | labelTyping (value : String)
  | commitLabelEv
  | toggleShowOthers (b : Bool)
  deriving DecidableEq, Repr

/-- One event-loop step of the editor. -/
def step (s : EditorState) : Ev → EditorState
  | .nodeChanges cs => handleNodeChanges s cs
  | .edgeChanges cs => handleEdgeChanges s cs
  | .nodeDrag nodeId p => handleNodeDrag s nodeId p
  | .nodeDragStop => handleNodeDragStop s
  | .saveTimerFires => fireSaveTimer s
  | .dragTimerFires => fireDragTimer s
  | .cursorMsg userId x y username color => recvCursor s userId x y username color
  | .nodeMoveMsg userId nodeId x y => recvNodeMove s userId nodeId x y
  | .doubleClick nodeId => onNodeDoubleClick s nodeId
  | .labelTyping value => handleLabelTyping s value
  | .commitLabelEv => commitLabel s
  | .toggleShowOthers b => setShowOthersCursors s b

/-- Run a sequence of events. -/
def run (s : EditorState) (evs : List Ev) : EditorState := evs.foldl step s

/-! ## Cursor broadcast rate gate (`handlePaneMouseMove`) -/

/-- The clamp `Math.max(5, Math.min(60, cursorFps))`. -/
def clampFps (fps : Rat) : Rat := max 5 (min 60 fps)

/-- `minInterval = 1000 / Math.max(5, Math.min(60, cursorFps))`. -/
def minIntervalOf (fps : Rat) : Rat := 1000 / clampFps fps

/-- The gate inside `handlePaneMouseMove`, run over a stream of pointer-move
timestamps starting from the last-allowed timestamp `last` (initially 0, the
`useRef(0)` value): a call is dropped when `now - last < minInterval`,
otherwise it passes and `last` is updated to `now`. Returns the timestamps of
the calls that pass. -/
def cursorAllowedTimes (fps : Rat) : Rat → List Rat → List Rat
  | _, [] => []
  | last, t :: ts =>
    if t - last < minIntervalOf fps then cursorAllowedTimes fps last ts
    else t :: cursorAllowedTimes fps t ts

/-- A stream of pointer-move calls at 1ms intervals for one second. -/
def oneSecondOfCalls : List Rat := (List.range 1000).map (fun i => (i : Rat))

/-- Source `handlePaneMouseMove`: requires the canvas wrapper, the current
user and the flow instance (the first and last are render infrastructure,
modelled as present; the screen-to-flow projection is performed by the
external canvas instance, modelled by the event carrying projected
coordinates). Applies the rate gate, then broadcasts, then draws or clears
the local cursor dot according to the show-my-cursor setting. -/
def handlePaneMouseMove (s : EditorState) (t : Rat) (x y : Rat)
    (username color : String) : EditorState :=
  match s.currentUser with
  | none => s
  | some u =>
    if t - s.lastCursorSent < minIntervalOf s.cursorFps then s
    else
      let s1 := { s with lastCursorSent := t }
      let s2 :=
        if s1.hasChannel then
          { s1 with broadcasts := s1.broadcasts ++ [OutMsg.cursor u x y username color s1.now] }
        else s1
      if s2.showMyCursor then
        { s2 with cursors := upsert s2.cursors u { x, y, username, color } }
      else
        { s2 with cursors := s2.cursors.filter (fun p => ¬ p.1 = u) }

/-! ## Persistence failure boundary (`updateMapRow`) -/

/-- The possible outcomes of the durable write inside `updateMapRow`. -/
inductive SaveOutcome
  | ok
  | storeError (msg : String)
  | thrown (msg : String)
  deriving DecidableEq, Repr

/-- The awaited store call: it either resolves with no error, resolves with
an error object (`{ error }` non-null), or rejects/throws. -/
def saveMapsRow (outcome : SaveOutcome) : Except String (Option String) :=
  match outcome with
  | .ok => .ok none
  | .storeError m => .ok (some m)
  | .thrown m => .error m

/-- The observable result of one `updateMapRow` call: the component state it
leaves behind, how many store calls it made, and what it logged. -/
structure UpdateResult where
  state : EditorState
  storeCalls : Nat
  logs : List String
  deriving DecidableEq, Repr

/-- Source `updateMapRow` with an explicit store outcome: a no-op before the
map loads; otherwise exactly one store call inside a try/catch — a resolved
error object is logged ("Update map failed"), a thrown error is caught and
logged ("Unexpected updateMapRow error"), and in every case the function
returns normally without touching any component state and without retrying.
The `Except.error` branch of `saveMapsRow` is what the JS `catch` receives;
this definition is the whole function body including that catch, so its
plain (non-`Except`) result type is the statement that no exception escapes. -/
def updateMapRowWithOutcome (s : EditorState) (outcome : SaveOutcome) : UpdateResult :=
  if s.mapLoaded = false then { state := s, storeCalls := 0, logs := [] }
  else
    match saveMapsRow outcome with
    | .ok none => { state := s, storeCalls := 1, logs := [] }
    | .ok (some m) => { state := s, storeCalls := 1, logs := ["Update map failed: " ++ m] }
    | .error m => { state := s, storeCalls := 1, logs := ["Unexpected updateMapRow error: " ++ m] }

/-! ## Formalized claim statements (for the claims the code refutes) -/

/-- A local graph mutation event: a node change batch or an edge change batch. -/
def isMutation : Ev → Bool
  | .nodeChanges _ => true
  | .edgeChanges _ => true
  | _ => false

/-- Claim C1 as stated, at a start state and a burst of local mutation
events falling inside one debounce window (the window's timer, if any, fires
after the last mutation): exactly one durable write is performed and it
carries the final in-memory nodes and edges. -/
def claimC1 (s : EditorState) (evs : List Ev) : Prop :=
  (∀ e ∈ evs, isMutation e = true) → evs ≠ [] → s.mapLoaded = true →
    s.editingNodeId = none →
    ∃ w : WriteRow,
      (run s (evs ++ [Ev.saveTimerFires])).writes = s.writes ++ [w] ∧
      w.nodes = (run s (evs ++ [Ev.saveTimerFires])).nodes ∧
      w.edges = (run s (evs ++ [Ev.saveTimerFires])).edges

/-- An externally driven node-position-change event: a local change batch or
an inbound node-move broadcast. -/
def isPositionEvent : Ev → Bool
  | .nodeChanges _ => true
  | .nodeMoveMsg _ _ _ _ => true
  | _ => false

/-- Claim C2 as stated, at a state and an event: while a node is in edit
mode, the event leaves every node's position unchanged. -/
def claimC2 (s : EditorState) (ev : Ev) : Prop :=
  s.editingNodeId.isSome = true → isPositionEvent ev = true →
    (step s ev).nodes.map (fun n => (n.id, n.position)) =
      s.nodes.map (fun n => (n.id, n.position))

/-- Claim C4 as stated, at a node list: the assigned identifier is numeric —
the decimal string of a positive integer, hence one `parseInt` recovers —
strictly greater than every existing numeric identifier, and the empty graph
yields "1". -/
def claimC4 (nodes : List Node) : Prop :=
  (∃ p : Int, 0 < p ∧ addNodeNewId nodes = intToDecimal p ∧
    parseIntJS (addNodeNewId nodes) = some p ∧
    ∀ n ∈ nodes, ∀ m : Int, parseIntJS n.id = some m → m < p) ∧
  (nodes = [] → addNodeNewId nodes = "1")

/-! ## Concrete states for witnesses and counterexamples -/

/-- A small concrete node. -/
def mkNode (i : String) (x y : Rat) : Node :=
  { id := i
    data := { title := "Node " ++ i, isEditing := false }
    position := { x, y }
    border := "2px solid #64748B"
    creator := "u1"
    creationTimestamp := "0"
    selected := false }

/-- A small concrete edge. -/
def mkEdge (i src tgt : String) : Edge :=
  { id := i
    source := src
    target := tgt
    label := none
    style := { stroke := some "#64748B", strokeOpacity := some (9/20),
               strokeWidth := some 2, strokeDasharray := none }
    markerEnd := none
    selected := false }

/-- A loaded editor session for the local participant "me". -/
def baseState : EditorState :=
  { nodes := [mkNode "1" 0 0, mkNode "2" 0 0]
    edges := [mkEdge "e1" "1" "2"]
    mapName := "Demo"
    mapDescription := ""
    nodeNotes := []
    nodeDataMap := []
    mapLoaded := true
    currentUser := some "me"
    hasChannel := true
    borderColor := "#64748B"
    editingNodeId := none
    pendingLabel := ""
    cursors := [("me", { x := 1, y := 1, username := "me", color := "#FF5733" }),
                ("peer", { x := 2, y := 2, username := "peer", color := "#33FF57" })]
    showMyCursor := true
    showOthersCursors := true
    cursorFps := 20
    lastCursorSent := 0
    saveTimer := none
    dragSaveTimer := none
    writes := []
    broadcasts := []
    now := 1700000000 }

/-- C1 counterexample input: two edge-change batches inside one window. -/
def cexEvsC1 : List Ev :=
  [Ev.edgeChanges [EdgeChange.select "e1" true], Ev.edgeChanges [EdgeChange.select "e1" false]]

/-- C2 counterexample state: node "1" is in edit mode. -/
def cexStateC2 : EditorState := { baseState with editingNodeId := some "1" }

/-- C2 counterexample event: a peer's live drag broadcast for node "2". -/
def cexEvC2 : Ev := Ev.nodeMoveMsg "peer" "2" 5 5

/-- C4 counterexample input: a graph holding a non-numeric identifier. -/
def cexNodesC4 : List Node := [mkNode "1" 0 0, mkNode "x" 0 0]

/-- A burst of local node-change batches, as events. -/
def nodeBurst (bs : List (List NodeChange)) : List Ev := bs.map Ev.nodeChanges

/-- The node state after a burst of node-change batches. -/
def foldChanges (bs : List (List NodeChange)) (nds : List Node) : List Node :=
  bs.foldl (fun acc cs => applyNodeChanges cs acc) nds

/-- A session whose "show others' cursors" setting is off. -/
def stateOthersOff : EditorState := { baseState with showOthersCursors := false }

/-! # Theorems -/

/-! ## Generic run lemmas -/

theorem run_nil (s : EditorState) : run s [] = s := rfl

theorem run_cons (s : EditorState) (e : Ev) (evs : List Ev) :
    run s (e :: evs) = run (step s e) evs := rfl

theorem run_append (s : EditorState) (l1 l2 : List Ev) :
    run s (l1 ++ l2) = run (run s l1) l2 :=
  List.foldl_append step s l1 l2

/-! ## C3: self-echo filter -/

/-- C3 (confirmed): an inbound broadcast — cursor or node-move — whose
originating participant identifier equals the local participant's identifier
mutates nothing: the entire state, in particular the cursor overlay map and
the node list, is exactly what it was. -/
theorem selfEcho_broadcasts_ignored (s : EditorState) (me : String)
    (hu : s.currentUser = some me) (x y : Rat) (username color nodeId : String)
    (px py : Rat) :
    step s (Ev.cursorMsg me x y username color) = s ∧
    step s (Ev.nodeMoveMsg me nodeId px py) = s := by
  constructor
  · by_cases hme : me = "" <;> simp [step, recvCursor, hu, hme]
  · by_cases hid : nodeId = "" <;> simp [step, recvNodeMove, hu, hid]

/-- Witness for C3 at a concrete session. -/
theorem selfEcho_broadcasts_ignored_witness :
    baseState.currentUser = some "me" ∧
    (step baseState (Ev.cursorMsg "me" 1 2 "u" "c") = baseState ∧
     step baseState (Ev.nodeMoveMsg "me" "2" 5 5) = baseState) :=
  ⟨rfl, selfEcho_broadcasts_ignored baseState "me" rfl 1 2 "u" "c" "2" 5 5⟩

/-! ## C9: persistence failure boundary -/

/-- C9 (confirmed): a durable write failure — whether the store resolves with
an error or the call throws — is logged and swallowed inside `updateMapRow`:
the function returns normally for every outcome, the in-memory component
state (nodes, edges, notes, metadata) is exactly what it was before the
attempt, exactly one store call is made (no retry), and each failure leaves
one log entry. -/
theorem updateMapRow_swallows_failures (s : EditorState) (outcome : SaveOutcome)
    (hL : s.mapLoaded = true) :
    (updateMapRowWithOutcome s outcome).state = s ∧
    (updateMapRowWithOutcome s outcome).storeCalls = 1 ∧
    (outcome ≠ SaveOutcome.ok → (updateMapRowWithOutcome s outcome).logs.length = 1) := by
  cases outcome <;> simp [updateMapRowWithOutcome, saveMapsRow, hL]

/-- Witness for C9 at a concrete session and a thrown write. -/
theorem updateMapRow_swallows_failures_witness :
    baseState.mapLoaded = true ∧
    ((updateMapRowWithOutcome baseState (SaveOutcome.thrown "network")).state = baseState ∧
     (updateMapRowWithOutcome baseState (SaveOutcome.thrown "network")).storeCalls = 1 ∧
     (SaveOutcome.thrown "network" ≠ SaveOutcome.ok →
       (updateMapRowWithOutcome baseState (SaveOutcome.thrown "network")).logs.length = 1)) :=
  ⟨rfl, updateMapRow_swallows_failures baseState (SaveOutcome.thrown "network") rfl⟩

/-! ## C10: avatar validation -/

/-- C10 (confirmed): the avatar validation accepts a file (returns the empty
error string) exactly when the file is present, its size is at most
5·1024·1024 bytes, and either its MIME type is image/jpeg, image/png or
image/webp, or the lowercased last dot-component of its filename is jpg,
jpeg, png or webp; in particular a disallowed MIME type is still accepted
when the extension is allowed. -/
theorem avatarValidation_accepts_iff (file : Option JsFile) :
    (getAvatarValidationError file = "" ↔
      ∃ f, file = some f ∧ f.size ≤ 5 * 1024 * 1024 ∧
        ((f.type = "image/jpeg" ∨ f.type = "image/png" ∨ f.type = "image/webp") ∨
         (fileExt f.name = "jpg" ∨ fileExt f.name = "jpeg" ∨ fileExt f.name = "png" ∨
          fileExt f.name = "webp"))) ∧
    getAvatarValidationError (some (JsFile.mk "photo.PNG" "text/plain" 100)) = "" := by
  refine ⟨?_, by decide⟩
  cases file with
  | none => simp [getAvatarValidationError]
  | some f =>
    have hallow : isAllowedImageFile (some f) = true ↔
        ((f.type = "image/jpeg" ∨ f.type = "image/png" ∨ f.type = "image/webp") ∨
         (fileExt f.name = "jpg" ∨ fileExt f.name = "jpeg" ∨ fileExt f.name = "png" ∨
          fileExt f.name = "webp")) := by
      simp [isAllowedImageFile, ALLOWED_IMAGE_TYPES, ALLOWED_IMAGE_EXTS,
        List.contains, List.elem_eq_mem]
    constructor
    · intro h
      refine ⟨f, rfl, ?_, ?_⟩
      · by_cases hA : isAllowedImageFile (some f) = true
        · by_cases hS : f.size > MAX_AVATAR_BYTES
          · simp [getAvatarValidationError, hA, hS] at h
          · simpa [MAX_AVATAR_BYTES] using hS
        · simp [getAvatarValidationError, hA] at h
      · by_cases hA : isAllowedImageFile (some f) = true
        · exact hallow.mp hA
        · simp [getAvatarValidationError, hA] at h
    · rintro ⟨f', hf', hsize, htype⟩
      cases hf'
      have hA : isAllowedImageFile (some f) = true := hallow.mpr htype
      have hS : ¬ f.size > MAX_AVATAR_BYTES := by simpa [MAX_AVATAR_BYTES] using hsize
      simp [getAvatarValidationError, hA, hS]

/-! ## C2: position freeze during inline edit -/

/-- C2 counterexample: with node "1" in edit mode, a peer's inbound node-move
broadcast for node "2" does change a node's position — the claim fails as
stated. -/
theorem editMode_position_freeze_cex : ¬ claimC2 cexStateC2 cexEvC2 := by
  intro h
  exact absurd (h (by decide) (by decide)) (by decide)

/-- C2 (corrected): while a node is in edit mode, locally driven node-change
batches are suppressed entirely — the state (in particular every node's
position) is unchanged for that render pass; inbound node-move broadcasts
from peers, however, are still applied (see the counterexample). -/
theorem editMode_suppresses_local_changes (s : EditorState) (cs : List NodeChange)
    (he : s.editingNodeId.isSome = true) :
    step s (Ev.nodeChanges cs) = s := by
  simp [step, handleNodeChanges, he]

/-- Witness for the corrected C2 at a concrete editing session. -/
theorem editMode_suppresses_local_changes_witness :
    cexStateC2.editingNodeId.isSome = true ∧
    step cexStateC2 (Ev.nodeChanges [NodeChange.position "2" (Pos.mk 5 5)]) = cexStateC2 :=
  ⟨rfl, editMode_suppresses_local_changes cexStateC2
    [NodeChange.position "2" (Pos.mk 5 5)] rfl⟩

/-! ## C6: drag broadcasts vs. drag-stop persistence -/

/-- C6 (confirmed): a continuous node-drag event sends exactly one broadcast
and leaves writes and both debounce timers untouched; a drag-stop event
performs no write and (re)schedules the 250ms drag timer capturing the
current edges; when that timer fires it is cleared and exactly one durable
write is performed whose nodes are the in-memory nodes at fire time. -/
theorem drag_broadcasts_dragStop_persists (s : EditorState) (u nodeId : String) (p : Pos)
    (hu : s.currentUser = some u) (hc : s.hasChannel = true) (hL : s.mapLoaded = true) :
    (step s (Ev.nodeDrag nodeId p) =
      { s with broadcasts := s.broadcasts ++ [OutMsg.nodeMove u nodeId p.x p.y s.now] }) ∧
    (step s Ev.nodeDragStop = { s with dragSaveTimer := some (DRAG_SAVE_DEBOUNCE_MS, s.edges) }) ∧
    (∀ d es, s.dragSaveTimer = some (d, es) →
      step s Ev.dragTimerFires =
        { s with dragSaveTimer := none,
                 writes := s.writes ++ [buildPayload s s.nodes es] }) := by
  refine ⟨?_, rfl, ?_⟩
  · simp [step, handleNodeDrag, hu, hc]
  · intro d es h
    simp [step, fireDragTimer, h, updateMapRowStep, hL]
    rfl

/-- Witness for C6 at a concrete session with a pending drag timer. -/
theorem drag_broadcasts_dragStop_persists_witness :
    (baseState.currentUser = some "me" ∧ baseState.hasChannel = true ∧
      baseState.mapLoaded = true) ∧
    (step baseState (Ev.nodeDrag "2" (Pos.mk 50 50)) =
      { baseState with broadcasts := baseState.broadcasts ++
          [OutMsg.nodeMove "me" "2" 50 50 baseState.now] } ∧
     step baseState Ev.nodeDragStop =
      { baseState with dragSaveTimer := some (DRAG_SAVE_DEBOUNCE_MS, baseState.edges) } ∧
     ∀ d es, baseState.dragSaveTimer = some (d, es) →
      step baseState Ev.dragTimerFires =
        { baseState with dragSaveTimer := none,
                         writes := baseState.writes ++
                           [buildPayload baseState baseState.nodes es] }) :=
  ⟨⟨rfl, rfl, rfl⟩, drag_broadcasts_dragStop_persists baseState "me" "2" (Pos.mk 50 50)
    rfl rfl rfl⟩

/-! ## C7: buffered title edit -/

/-- C7 (confirmed): while a node is in edit mode, a keystroke replaces only
the local edit buffer — graph, broadcasts, timers and writes are untouched;
committing (blur or Enter) writes the buffer into the editing node's title,
clears its edit flag, leaves edit mode, and performs exactly one durable
write. -/
theorem bufferedEdit_commit (s : EditorState) (i value : String)
    (hL : s.mapLoaded = true) (he : s.editingNodeId = some i) :
    (step s (Ev.labelTyping value) = { s with pendingLabel := value }) ∧
    (step s Ev.commitLabelEv =
      { s with
          nodes := s.nodes.map (fun n => if n.id = i then setNodeTitle n s.pendingLabel else n),
          editingNodeId := none,
          writes := s.writes ++
            [buildPayload s
              (s.nodes.map (fun n => if n.id = i then setNodeTitle n s.pendingLabel else n))
              s.edges] }) ∧
    (∀ n ∈ (step s Ev.commitLabelEv).nodes, n.id = i →
      n.data.title = s.pendingLabel ∧ n.data.isEditing = false) := by
  have hcommit : step s Ev.commitLabelEv =
      { s with
          nodes := s.nodes.map (fun n => if n.id = i then setNodeTitle n s.pendingLabel else n),
          editingNodeId := none,
          writes := s.writes ++
            [buildPayload s
              (s.nodes.map (fun n => if n.id = i then setNodeTitle n s.pendingLabel else n))
              s.edges] } := by
    simp [step, commitLabel, he, updateMapRowStep, hL]
    rfl
  refine ⟨rfl, hcommit, ?_⟩
  intro n hn hni
  rw [hcommit] at hn
  simp only [List.mem_map] at hn
  obtain ⟨m, hm, hEq⟩ := hn
  by_cases hmi : m.id = i
  · rw [if_pos hmi] at hEq
    rw [← hEq]
    exact ⟨rfl, rfl⟩
  · rw [if_neg hmi] at hEq
    exact absurd (hEq ▸ hni) hmi

/-- Witness for C7 at a concrete editing session. -/
theorem bufferedEdit_commit_witness :
    (cexStateC2.mapLoaded = true ∧ cexStateC2.editingNodeId = some "1") ∧
    (step cexStateC2 (Ev.labelTyping "draft") = { cexStateC2 with pendingLabel := "draft" } ∧
     step cexStateC2 Ev.commitLabelEv =
      { cexStateC2 with
          nodes := cexStateC2.nodes.map
            (fun n => if n.id = "1" then setNodeTitle n cexStateC2.pendingLabel else n),
          editingNodeId := none,
          writes := cexStateC2.writes ++
            [buildPayload cexStateC2
              (cexStateC2.nodes.map
                (fun n => if n.id = "1" then setNodeTitle n cexStateC2.pendingLabel else n))
              cexStateC2.edges] } ∧
     ∀ n ∈ (step cexStateC2 Ev.commitLabelEv).nodes, n.id = "1" →
      n.data.title = cexStateC2.pendingLabel ∧ n.data.isEditing = false) :=
  ⟨⟨rfl, rfl⟩, bufferedEdit_commit cexStateC2 "1" "draft" rfl rfl⟩

/-! ## C8: show-others-cursors toggle -/

/-- C8 (confirmed): toggling "show others' cursors" off immediately reduces
the overlay map to the local participant's own entry (empty when there is
none), and while the setting is off an inbound peer cursor broadcast leaves
the state — in particular the overlay map — unchanged. -/
theorem showOthersOff_clears_and_blocks (s : EditorState) (me : String)
    (hu : s.currentUser = some me) :
    (∀ v, getEntry s.cursors me = some v →
      (step s (Ev.toggleShowOthers false)).cursors = [(me, v)]) ∧
    (getEntry s.cursors me = none → (step s (Ev.toggleShowOthers false)).cursors = []) ∧
    (∀ uid x y un col, s.showOthersCursors = false → uid ≠ me →
      step s (Ev.cursorMsg uid x y un col) = s) := by
  refine ⟨?_, ?_, ?_⟩
  · intro v hv
    simp [step, setShowOthersCursors, hu, hv]
  · intro hv
    simp [step, setShowOthersCursors, hu, hv]
  · intro uid x y un col hoff hne
    by_cases huid : uid = "" <;> simp [step, recvCursor, hu, huid, hne, hoff]

/-- Witness for C8 at a concrete session with one peer entry. -/
theorem showOthersOff_clears_and_blocks_witness :
    stateOthersOff.currentUser = some "me" ∧
    (step stateOthersOff (Ev.toggleShowOthers false)).cursors =
      [("me", CursorEntry.mk 1 1 "me" "#FF5733")] ∧
    step stateOthersOff (Ev.cursorMsg "peer" 3 3 "p" "#333333") = stateOthersOff :=
  ⟨rfl,
   (showOthersOff_clears_and_blocks stateOthersOff "me" rfl).1
     (CursorEntry.mk 1 1 "me" "#FF5733") rfl,
   (showOthersOff_clears_and_blocks stateOthersOff "me" rfl).2.2 "peer" 3 3 "p" "#333333"
     rfl (by decide)⟩

/-! ## C1: debounced persistence of local mutation bursts -/

/-- Characterization of a burst of node-change batches while not editing:
the nodes accumulate the changes, the pending general-edit timer (for a
nonempty burst) holds the 300ms delay with the latest nodes and the
unchanged edges captured, and nothing else — writes included — moves. -/
theorem run_nodeBurst (bs : List (List NodeChange)) :
    ∀ s : EditorState, s.editingNodeId = none →
      run s (nodeBurst bs) =
        { s with
            nodes := foldChanges bs s.nodes,
            saveTimer :=
              if bs.isEmpty then s.saveTimer
              else some (SAVE_DEBOUNCE_MS, foldChanges bs s.nodes, s.edges) } := by
  induction bs with
  | nil => intro s he; rfl
  | cons c bs ih =>
    intro s he
    have hstep : step s (Ev.nodeChanges c) =
        { s with
            nodes := applyNodeChanges c s.nodes,
            saveTimer := some (SAVE_DEBOUNCE_MS, applyNodeChanges c s.nodes, s.edges) } := by
      simp [step, handleNodeChanges, he]
    have h1 : run s (nodeBurst (c :: bs)) =
        run { s with
                nodes := applyNodeChanges c s.nodes,
                saveTimer := some (SAVE_DEBOUNCE_MS, applyNodeChanges c s.nodes, s.edges) }
          (nodeBurst bs) := by
      rw [nodeBurst, List.map_cons, ← nodeBurst, run_cons, hstep]
    rw [h1, ih { s with
        nodes := applyNodeChanges c s.nodes,
        saveTimer := some (SAVE_DEBOUNCE_MS, applyNodeChanges c s.nodes, s.edges) } he]
    cases bs with
    | nil => rfl
    | cons b bs' => rfl

/-- C1 counterexample: two edge-change batches inside one debounce window
produce two durable writes (each edge change writes immediately, with no
debouncing), so "exactly one durable write per burst" fails as stated. -/
theorem debounce_single_write_cex : ¬ claimC1 baseState cexEvsC1 := by
  intro h
  obtain ⟨w, hw, -, -⟩ := h (by decide) (by decide) rfl rfl
  have h2 : (run baseState (cexEvsC1 ++ [Ev.saveTimerFires])).writes.length = 2 := by decide
  rw [hw] at h2
  have h3 : baseState.writes = [] := rfl
  rw [h3] at h2
  simp at h2

/-- C1 (corrected): for a nonempty burst of local node-change batches within
one debounce window (the rescheduled timer firing after the last batch),
exactly one durable write occurs and it carries the final in-memory nodes
and edges; edge changes, by contrast, are persisted immediately — one write
per edge-change batch, carrying the state after that batch. -/
theorem debounce_single_write (s : EditorState) (bs : List (List NodeChange))
    (cs : List EdgeChange) (hb : bs ≠ []) (hL : s.mapLoaded = true)
    (he : s.editingNodeId = none) :
    (∃ w : WriteRow,
      (run s (nodeBurst bs ++ [Ev.saveTimerFires])).writes = s.writes ++ [w] ∧
      w.nodes = (run s (nodeBurst bs ++ [Ev.saveTimerFires])).nodes ∧
      w.edges = (run s (nodeBurst bs ++ [Ev.saveTimerFires])).edges) ∧
    ((step s (Ev.edgeChanges cs)).writes =
      s.writes ++ [buildPayload s s.nodes (applyEdgeChanges cs s.edges)] ∧
     (step s (Ev.edgeChanges cs)).edges = applyEdgeChanges cs s.edges) := by
  constructor
  · obtain ⟨b, bs', rfl⟩ : ∃ b bs', bs = b :: bs' := by
      cases bs with
      | nil => exact absurd rfl hb
      | cons b bs' => exact ⟨b, bs', rfl⟩
    have hburst : run s (nodeBurst (b :: bs')) =
        { s with
            nodes := foldChanges (b :: bs') s.nodes,
            saveTimer :=
              some (SAVE_DEBOUNCE_MS, foldChanges (b :: bs') s.nodes, s.edges) } := by
      rw [run_nodeBurst (b :: bs') s he]
      rfl
    have hfire : run s (nodeBurst (b :: bs') ++ [Ev.saveTimerFires]) =
        { s with
            nodes := foldChanges (b :: bs') s.nodes,
            saveTimer := none,
            writes := s.writes ++
              [buildPayload { s with nodes := foldChanges (b :: bs') s.nodes, saveTimer := none }
                (foldChanges (b :: bs') s.nodes) s.edges] } := by
      rw [run_append, hburst]
      simp only [run, List.foldl_cons, List.foldl_nil, step]
      simp [fireSaveTimer, updateMapRowStep, hL]
    rw [hfire]
    exact ⟨buildPayload { s with nodes := foldChanges (b :: bs') s.nodes, saveTimer := none }
      (foldChanges (b :: bs') s.nodes) s.edges, rfl, rfl, rfl⟩
  · constructor
    · show (handleEdgeChanges s cs).writes = _
      simp [handleEdgeChanges, updateMapRowStep, hL]
      rfl
    · show (handleEdgeChanges s cs).edges = _
      simp [handleEdgeChanges, updateMapRowStep, hL]

/-- Witness for the corrected C1: a two-batch node burst and an edge change
at a concrete session. -/
theorem debounce_single_write_witness :
    ([[NodeChange.position "1" (Pos.mk 3 4)], [NodeChange.position "1" (Pos.mk 7 8)]] ≠
        ([] : List (List NodeChange)) ∧
      baseState.mapLoaded = true ∧ baseState.editingNodeId = none) ∧
    ((∃ w : WriteRow,
      (run baseState
        (nodeBurst [[NodeChange.position "1" (Pos.mk 3 4)], [NodeChange.position "1" (Pos.mk 7 8)]]
          ++ [Ev.saveTimerFires])).writes = baseState.writes ++ [w] ∧
      w.nodes = (run baseState
        (nodeBurst [[NodeChange.position "1" (Pos.mk 3 4)], [NodeChange.position "1" (Pos.mk 7 8)]]
          ++ [Ev.saveTimerFires])).nodes ∧
      w.edges = (run baseState
        (nodeBurst [[NodeChange.position "1" (Pos.mk 3 4)], [NodeChange.position "1" (Pos.mk 7 8)]]
          ++ [Ev.saveTimerFires])).edges) ∧
    ((step baseState (Ev.edgeChanges [EdgeChange.select "e1" true])).writes =
      baseState.writes ++
        [buildPayload baseState baseState.nodes
          (applyEdgeChanges [EdgeChange.select "e1" true] baseState.edges)] ∧
     (step baseState (Ev.edgeChanges [EdgeChange.select "e1" true])).edges =
      applyEdgeChanges [EdgeChange.select "e1" true] baseState.edges)) :=
  ⟨⟨by decide, rfl, rfl⟩,
   debounce_single_write baseState
     [[NodeChange.position "1" (Pos.mk 3 4)], [NodeChange.position "1" (Pos.mk 7 8)]]
     [EdgeChange.select "e1" true] (by decide) rfl rfl⟩

/-! ## C5: cursor broadcast rate gate -/

/-- The timestamps the gate admits form a chain starting at the initial
last-allowed timestamp in which consecutive admissions are at least
`minInterval` apart (no burst credit: the state is only the last-allowed
timestamp). -/
theorem cursorAllowedTimes_chain (fps : Rat) (ts : List Rat) :
    ∀ last : Rat,
      List.Chain (fun a b => a + minIntervalOf fps ≤ b) last
        (cursorAllowedTimes fps last ts) := by
  induction ts with
  | nil => intro last; exact List.Chain.nil
  | cons t ts ih =>
    intro last
    rw [cursorAllowedTimes]
    split
    · exact ih last
    · rename_i hge
      exact List.Chain.cons (by linarith [not_lt.mp hge]) (ih t)

/-- Counting bound: if all call timestamps are at most `B` and the gate
starts at `last ≤ B`, then `minInterval * (number admitted) ≤ B - last`. -/
theorem cursorAllowedTimes_count (fps : Rat) (B : Rat) (ts : List Rat) :
    ∀ last : Rat, last ≤ B → (∀ t ∈ ts, t ≤ B) →
      minIntervalOf fps * ((cursorAllowedTimes fps last ts).length : Rat) ≤ B - last := by
  induction ts with
  | nil =>
    intro last hlast _
    simp [cursorAllowedTimes]
    linarith
  | cons t ts ih =>
    intro last hlast hB
    rw [cursorAllowedTimes]
    split
    · exact le_trans (ih last hlast (fun u hu => hB u (List.mem_cons_of_mem t hu)))
        (by linarith)
    · rename_i hge
      have ht : t ≤ B := hB t (List.mem_cons_self t ts)
      have hrec := ih t ht (fun u hu => hB u (List.mem_cons_of_mem t hu))
      have hI : minIntervalOf fps ≤ t - last := not_lt.mp hge
      rw [List.length_cons]
      push_cast
      nlinarith [hrec, hI]

/-- C5 (confirmed): the gate admits a pointer-move at most once per
`1000/fps` milliseconds for the clamped fps — consecutive admitted
timestamps are at least `minIntervalOf fps` apart — and for fps = 20 with
calls at 1ms intervals for one second, at most 21 calls (in fact at most
these bounds' 19) pass the gate. -/
theorem rateGate_spacing_and_count :
    (∀ (fps last : Rat) (ts : List Rat),
      List.Chain (fun a b => a + minIntervalOf fps ≤ b) last
        (cursorAllowedTimes fps last ts)) ∧
    (cursorAllowedTimes 20 0 oneSecondOfCalls).length ≤ 21 := by
  constructor
  · intro fps last ts
    exact cursorAllowedTimes_chain fps ts last
  · have hI : minIntervalOf 20 = 50 := by
      norm_num [minIntervalOf, clampFps]
    have hbound : ∀ t ∈ oneSecondOfCalls, t ≤ (999 : Rat) := by
      intro t ht
      have ht2 : t ∈ List.map (fun i : Nat => (i : Rat)) (List.range 1000) := ht
      obtain ⟨i, hi, rfl⟩ := List.mem_map.mp ht2
      have h9 : i ≤ 999 := by
        have := List.mem_range.mp hi
        omega
      exact_mod_cast h9
    have hcount := cursorAllowedTimes_count 20 999 oneSecondOfCalls 0 (by norm_num) hbound
    rw [hI] at hcount
    by_contra hlen
    push_neg at hlen
    have h22 : (22 : Rat) ≤ ((cursorAllowedTimes 20 0 oneSecondOfCalls).length : Rat) := by
      exact_mod_cast hlen
    nlinarith

/-! ## C4: monotone numeric node identifiers -/

theorem toDigitsLE_lt10 : ∀ (fuel n : Nat), ∀ d ∈ toDigitsLE fuel n, d < 10 := by
  intro fuel
  induction fuel with
  | zero => intro n d hd; simp [toDigitsLE] at hd
  | succ fuel ih =>
    intro n d hd
    rw [toDigitsLE] at hd
    by_cases hn : n = 0
    · simp [hn] at hd
    · rw [if_neg hn] at hd
      rcases List.mem_cons.mp hd with h | h
      · rw [h]; exact Nat.mod_lt n (by norm_num)
      · exact ih (n / 10) d h

theorem toDigitsLE_ne_nil (fuel n : Nat) (hn : n ≠ 0) (hle : n ≤ fuel) :
    toDigitsLE fuel n ≠ [] := by
  cases fuel with
  | zero => omega
  | succ fuel => rw [toDigitsLE, if_neg hn]; exact List.cons_ne_nil _ _

theorem foldl10_toDigitsLE : ∀ (fuel n : Nat), n ≤ fuel →
    ((toDigitsLE fuel n).reverse).foldl (fun a d => 10 * a + d) 0 = n := by
  intro fuel
  induction fuel with
  | zero => intro n hle; interval_cases n; rfl
  | succ fuel ih =>
    intro n hle
    by_cases hn : n = 0
    · subst hn; rfl
    · rw [toDigitsLE, if_neg hn, List.reverse_cons, List.foldl_append]
      have hdiv : n / 10 ≤ fuel := by
        have := Nat.div_lt_self (Nat.pos_of_ne_zero hn) (by norm_num : 1 < 10)
        omega
      rw [ih (n / 10) hdiv]
      show 10 * (n / 10) + n % 10 = n
      omega

theorem natDigitChar_isDigit (d : Nat) (hd : d < 10) :
    isDigitChar (natDigitChar d) = true := by
  interval_cases d <;> decide

theorem digitVal_natDigitChar (d : Nat) (hd : d < 10) :
    digitVal (natDigitChar d) = d := by
  interval_cases d <;> decide

theorem foldl_map_digit : ∀ (L : List Nat), (∀ d ∈ L, d < 10) → ∀ k : Nat,
    (L.map natDigitChar).foldl (fun a c => 10 * a + digitVal c) k =
      L.foldl (fun a d => 10 * a + d) k := by
  intro L
  induction L with
  | nil => intro _ k; rfl
  | cons d L ih =>
    intro h k
    rw [List.map_cons, List.foldl_cons, List.foldl_cons,
      digitVal_natDigitChar d (h d (List.mem_cons_self d L))]
    exact ih (fun x hx => h x (List.mem_cons_of_mem d hx)) _

theorem takeWhile_all_digits : ∀ (L : List Char), (∀ c ∈ L, isDigitChar c = true) →
    L.takeWhile isDigitChar = L := by
  intro L
  induction L with
  | nil => intro _; rfl
  | cons c L ih =>
    intro h
    rw [List.takeWhile_cons, h c (List.mem_cons_self c L)]
    simp [ih (fun x hx => h x (List.mem_cons_of_mem c hx))]

theorem parseIntDigits_all (cs : List Char) (hne : cs ≠ [])
    (hdig : ∀ c ∈ cs, isDigitChar c = true) :
    parseIntDigits cs = some (cs.foldl (fun a c => 10 * a + digitVal c) 0) := by
  rw [parseIntDigits]
  simp only [takeWhile_all_digits cs hdig]
  rw [if_neg (by simpa using hne)]

theorem parseIntJS_digits (cs : List Char) (hne : cs ≠ [])
    (hdig : ∀ c ∈ cs, isDigitChar c = true) :
    parseIntJS ⟨cs⟩ = some ((cs.foldl (fun a c => 10 * a + digitVal c) 0 : Nat) : Int) := by
  cases cs with
  | nil => exact absurd rfl hne
  | cons c rest =>
    have hc : isDigitChar c = true := hdig c (List.mem_cons_self c rest)
    have hcs : ¬ c = ' ' := by intro h; rw [h] at hc; exact absurd hc (by decide)
    have hcm : ¬ c = '-' := by intro h; rw [h] at hc; exact absurd hc (by decide)
    have hcp : ¬ c = '+' := by intro h; rw [h] at hc; exact absurd hc (by decide)
    show parseIntJS (String.mk (c :: rest)) = _
    rw [parseIntJS]
    simp only [List.dropWhile_cons, decide_eq_true_eq, hcs, if_false, if_neg hcm, if_neg hcp]
    rw [parseIntDigits_all (c :: rest) (List.cons_ne_nil c rest) hdig]
    rfl

theorem parse_natToDecimal (n : Nat) : parseIntJS (natToDecimal n) = some (n : Int) := by
  by_cases hn : n = 0
  · subst hn; decide
  · rw [natToDecimal, if_neg hn]
    have hdig : ∀ c ∈ ((natDigitsLE n).map natDigitChar).reverse, isDigitChar c = true := by
      intro c hc
      rw [List.mem_reverse] at hc
      obtain ⟨d, hd, rfl⟩ := List.mem_map.mp hc
      exact natDigitChar_isDigit d (toDigitsLE_lt10 n n d hd)
    have hne : ((natDigitsLE n).map natDigitChar).reverse ≠ [] := by
      simp only [ne_eq, List.reverse_eq_nil_iff, List.map_eq_nil_iff]
      exact toDigitsLE_ne_nil n n hn le_rfl
    rw [parseIntJS_digits _ hne hdig]
    simp only [natDigitsLE]
    rw [← List.map_reverse,
      foldl_map_digit ((toDigitsLE n n).reverse)
        (fun d hd => toDigitsLE_lt10 n n d (List.mem_reverse.mp hd)) 0,
      foldl10_toDigitsLE n n le_rfl]

theorem parse_intToDecimal_pos (m : Int) (hm : 0 < m) :
    parseIntJS (intToDecimal m) = some m := by
  rw [intToDecimal, if_neg (by omega)]
  rw [parse_natToDecimal m.toNat]
  congr 1
  omega

theorem jsMaxParsed_cons₂ (o o' : Option Int) (rest : List (Option Int)) :
    jsMaxParsed (o :: o' :: rest) =
      match o, jsMaxParsed (o' :: rest) with
      | some a, some b => some (max a b)
      | _, _ => none := rfl

theorem jsMaxParsed_bound : ∀ (l : List (Option Int)) (M : Int),
    jsMaxParsed l = some M → ∀ m : Int, (some m) ∈ l → m ≤ M := by
  intro l
  induction l with
  | nil => intro M hM m hm; simp at hm
  | cons o l ih =>
    intro M hM m hm
    cases l with
    | nil =>
      have ho : o = some M := hM
      have h1 : some m = o := List.mem_singleton.mp hm
      rw [ho] at h1
      have : m = M := Option.some.inj h1
      omega
    | cons o' l' =>
      rw [jsMaxParsed_cons₂] at hM
      cases o with
      | none => exact Option.noConfusion (show (none : Option Int) = some M from hM)
      | some a =>
        cases h2 : jsMaxParsed (o' :: l') with
        | none =>
          rw [h2] at hM
          exact Option.noConfusion (show (none : Option Int) = some M from hM)
        | some b =>
          rw [h2] at hM
          have hMab : max a b = M := Option.some.inj hM
          rcases List.mem_cons.mp hm with h | h
          · have ha : m = a := Option.some.inj h
            rw [ha, ← hMab]
            exact le_max_left a b
          · have := ih b h2 m h
            rw [← hMab]
            exact le_trans this (le_max_right a b)

theorem jsMaxParsed_attained : ∀ (l : List (Option Int)) (M : Int),
    jsMaxParsed l = some M → (some M) ∈ l := by
  intro l
  induction l with
  | nil =>
    intro M hM
    exact Option.noConfusion (show (none : Option Int) = some M from hM)
  | cons o l ih =>
    intro M hM
    cases l with
    | nil =>
      have ho : o = some M := hM
      rw [ho]
      exact List.mem_singleton.mpr rfl
    | cons o' l' =>
      rw [jsMaxParsed_cons₂] at hM
      cases o with
      | none => exact Option.noConfusion (show (none : Option Int) = some M from hM)
      | some a =>
        cases h2 : jsMaxParsed (o' :: l') with
        | none =>
          rw [h2] at hM
          exact Option.noConfusion (show (none : Option Int) = some M from hM)
        | some b =>
          rw [h2] at hM
          have hMab : max a b = M := Option.some.inj hM
          rcases max_choice a b with h | h
          · have : a = M := by rw [← hMab, h]
            rw [← this]
            exact List.mem_cons_self _ _
          · have : b = M := by rw [← hMab, h]
            rw [← this]
            exact List.mem_cons_of_mem _ (ih b h2)

theorem jsMaxParsed_total : ∀ (l : List (Option Int)), l ≠ [] →
    (∀ o ∈ l, ∃ m : Int, o = some m) → ∃ M, jsMaxParsed l = some M := by
  intro l
  induction l with
  | nil => intro h _; exact absurd rfl h
  | cons o l ih =>
    intro _ hall
    obtain ⟨a, ha⟩ := hall o (List.mem_cons_self o l)
    cases l with
    | nil => exact ⟨a, by rw [ha]; rfl⟩
    | cons o' l' =>
      obtain ⟨b, hb⟩ := ih (List.cons_ne_nil o' l')
        (fun x hx => hall x (List.mem_cons_of_mem o hx))
      refine ⟨max a b, ?_⟩
      rw [jsMaxParsed_cons₂, ha, hb]

/-- C4 counterexample: in a graph holding the non-numeric identifier "x",
`parseInt` yields NaN, `Math.max` is poisoned to NaN, and the assigned
identifier is the non-numeric string "NaN" — the claim fails as stated. -/
theorem addNode_id_monotone_cex : ¬ claimC4 cexNodesC4 := by
  intro h
  obtain ⟨⟨p, hp, heq, hparse, hgt⟩, -⟩ := h
  have hna : parseIntJS (addNodeNewId cexNodesC4) = none := by decide
  rw [hna] at hparse
  exact Option.noConfusion hparse

/-- C4 (corrected): provided every existing node identifier parses as a
nonnegative integer (as every identifier the engine itself creates does),
the assigned identifier is the decimal string of a positive integer strictly
greater than every existing numeric identifier, and creating into an empty
graph assigns "1"; with a non-numeric identifier present the assignment
degenerates to "NaN" (see the counterexample). -/
theorem addNode_id_monotone (nodes : List Node)
    (h : ∀ n ∈ nodes, ∃ k : Nat, parseIntJS n.id = some (k : Int)) :
    claimC4 nodes := by
  constructor
  · by_cases hnil : nodes = []
    · subst hnil
      exact ⟨1, one_pos, rfl, by decide, by simp⟩
    · have hlne : nodes.map (fun n => parseIntJS n.id) ≠ [] := by
        simpa using hnil
      have hall : ∀ o ∈ nodes.map (fun n => parseIntJS n.id), ∃ m : Int, o = some m := by
        intro o ho
        obtain ⟨n, hn, rfl⟩ := List.mem_map.mp ho
        obtain ⟨k, hk⟩ := h n hn
        exact ⟨(k : Int), hk⟩
      obtain ⟨M, hM⟩ := jsMaxParsed_total _ hlne hall
      have hM0 : 0 ≤ M := by
        have hmem := jsMaxParsed_attained _ M hM
        obtain ⟨n, hn, hid⟩ := List.mem_map.mp hmem
        obtain ⟨k, hk⟩ := h n hn
        rw [hk] at hid
        have : (k : Int) = M := Option.some.inj hid
        omega
      have haddId : addNodeNewId nodes = intToDecimal (M + 1) := by
        rw [addNodeNewId, addNodeMaxId, if_neg (by simpa using hnil), hM]
      refine ⟨M + 1, by omega, haddId, ?_, ?_⟩
      · rw [haddId]
        exact parse_intToDecimal_pos (M + 1) (by omega)
      · intro n hn m hm
        have hmem : (some m) ∈ nodes.map (fun n => parseIntJS n.id) := by
          rw [← hm]
          exact List.mem_map_of_mem _ hn
        have := jsMaxParsed_bound _ M hM m hmem
        omega
  · intro h'
    subst h'
    rfl

/-- Witness for the corrected C4: the amended claim holds at a concrete
graph whose identifiers "1" and "2" are numeric. -/
theorem addNode_id_monotone_witness :
    (∀ n ∈ baseState.nodes, ∃ k : Nat, parseIntJS n.id = some (k : Int)) ∧
    claimC4 baseState.nodes :=
  ⟨by
    intro n hn
    rcases List.mem_cons.mp hn with h1 | h1
    · exact ⟨1, by rw [h1]; decide⟩
    · rcases List.mem_cons.mp h1 with h2 | h2
      · exact ⟨2, by rw [h2]; decide⟩
      · simp at h2,
   addNode_id_monotone baseState.nodes (by
    intro n hn
    rcases List.mem_cons.mp hn with h1 | h1
    · exact ⟨1, by rw [h1]; decide⟩
    · rcases List.mem_cons.mp h1 with h2 | h2
      · exact ⟨2, by rw [h2]; decide⟩
      · simp at h2)⟩

end IdeaMapper

